import Mathlib

/-!
A verification development for the survey state machine, answer parser,
profile-completion flow and advice engine of `survey_handler.py`.

The Python handlers are shallowly embedded as pure Lean functions: the
per-user FSM session data becomes an explicit `Session` record, the
message sends become an explicit output list, an uncaught Python
exception becomes an `Except PyError` error result (the session is then
left unchanged and nothing is sent from the failing point on), and the
`random.choice` calls draw from an injectable index source
`pick : Nat → Nat` consumed left to right in call order.  The external
collaborators whose code lives outside this file's source (the
`questions.py` catalog and classifier, `profile_generator.generate_profile`)
are universally quantified parameters of the embedded handlers.
-/

namespace ONASQLite

/-- Python `str.lower` restricted to the alphabets this program uses
(ASCII and the Russian range of Cyrillic). -/
def pyLowerChar (c : Char) : Char :=
  if 'A' ≤ c ∧ c ≤ 'Z' then Char.ofNat (c.toNat + 32)
  else if 'А' ≤ c ∧ c ≤ 'Я' then Char.ofNat (c.toNat + 32)
  else if c = 'Ё' then 'ё'
  else c

/-- Python `str.upper` restricted to the alphabets this program uses. -/
def pyUpperChar (c : Char) : Char :=
  if 'a' ≤ c ∧ c ≤ 'z' then Char.ofNat (c.toNat - 32)
  else if 'а' ≤ c ∧ c ≤ 'я' then Char.ofNat (c.toNat - 32)
  else if c = 'ё' then 'Ё'
  else c

/-- Python `str.lower` on a whole string. -/
def pyLower (s : String) : String := String.mk (s.data.map pyLowerChar)

/-- Python's substring operator `needle in hay`. -/
def hasInfix (needle : List Char) : List Char → Bool
  | [] => List.isPrefixOf needle []
  | c :: cs => List.isPrefixOf needle (c :: cs) || hasInfix needle cs

/-- Rule 1 of the answer parser: `message.text.startswith(f"{opt}:")`. -/
def ruleColon (opt : Char) (t : List Char) : Bool := List.isPrefixOf [opt, ':'] t

/-- Rule 2: `message.text.startswith(f"{opt} ")`. -/
def ruleSpaced (opt : Char) (t : List Char) : Bool := List.isPrefixOf [opt, ' '] t

/-- Rule 3: `message.text.upper() == opt`. -/
def ruleExact (opt : Char) (t : List Char) : Bool := t.map pyUpperChar == [opt]

/-- Rule 4: `f" {opt} " in f" {message.text.upper()} "`. -/
def ruleToken (opt : Char) (t : List Char) : Bool :=
  hasInfix [' ', opt, ' '] (' ' :: t.map pyUpperChar ++ [' '])

/-- One iteration of the `for opt in ["A", "B", "C", "D"]` loop body of
`process_survey_answer`: the four format checks for a single letter, in
source order. -/
def matchesOption (opt : Char) (t : List Char) : Bool :=
  ruleColon opt t || ruleSpaced opt t || ruleExact opt t || ruleToken opt t

/-- The candidate letters, in the order the source iterates them. -/
def optionLetters : List Char := ['A', 'B', 'C', 'D']

/-- The answer parser of `process_survey_answer` (lines 322–345): the first
letter in `A, B, C, D` order for which one of the four rules fires. -/
def parseOption (t : List Char) : Option Char :=
  optionLetters.find? (fun opt => matchesOption opt t)

/-- The parser as the specification words it: the four rules are tried in
priority order across all letters, and the first successful rule (not the
first successful letter) decides.  Stated only to compare against
`parseOption`, which is the embedding of the source. -/
def parseOptionSpec (t : List Char) : Option Char :=
  (optionLetters.find? (fun opt => ruleColon opt t)).orElse (fun _ =>
  (optionLetters.find? (fun opt => ruleSpaced opt t)).orElse (fun _ =>
  (optionLetters.find? (fun opt => ruleExact opt t)).orElse (fun _ =>
  optionLetters.find? (fun opt => ruleToken opt t))))

/-- The Telegram message-size bound used by the chunking code. -/
def maxMessageLength : Nat := 4000

/-- Python `text.split('\n')` on a character list. -/
def splitLines : List Char → List (List Char)
  | [] => [[]]
  | c :: cs =>
    if c = '\n' then [] :: splitLines cs
    else
      match splitLines cs with
      | [] => [[c]]
      | l :: ls => (c :: l) :: ls

/-- One iteration of the chunk-accumulation loop of `complete_survey` /
`show_profile_details`: either extend `current_part` with `line + '\n'`
or flush it and start a new part. -/
def chunkStep (acc : List (List Char) × List Char) (line : List Char) :
    List (List Char) × List Char :=
  if acc.2.length + line.length + 1 ≤ maxMessageLength then
    (acc.1, acc.2 ++ line ++ ['\n'])
  else
    (acc.1 ++ [acc.2], line ++ ['\n'])

/-- The whole chunk-accumulation loop, including the final
`if current_part: parts.append(current_part)`. -/
def buildParts (lines : List (List Char)) : List (List Char) :=
  let r := lines.foldl chunkStep ([], [])
  if r.2 = [] then r.1 else r.1 ++ [r.2]

/-- The profile send: one message when the text fits in
`maxMessageLength`, otherwise the parts built by splitting on lines. -/
def sendProfileChunks (text : List Char) : List (List Char) :=
  if maxMessageLength < text.length then buildParts (splitLines text) else [text]

/-- The aiogram states used by the handlers. -/
inductive FsmState where
  | answeringQuestions
  | profileViewing
deriving DecidableEq, Repr

/-- A catalog question record as `questions.py` supplies it. -/
structure Question where
  id : String
  text : String
  options : List (String × String)
  interpretations : List (String × String)
deriving DecidableEq, Repr

/-- The external question catalog (`get_demo_questions`,
`get_all_vasini_questions`), a parameter of the handlers. -/
structure Catalog where
  demoQuestions : List Question
  vasiniQuestions : List Question

/-- The external classifier `get_personality_type_from_answers`:
answers ↦ (type_counts, primary_type, secondary_type). -/
def Classifier : Type :=
  List (String × String) → List (String × Nat) × String × String

/-- The per-user FSM session data.  Each field default is the `.get`
default the handlers read the corresponding key with; `state.clear()`
resets the record to `Session.init`. -/
structure Session where
  fsmState : Option FsmState := none
  questionIndex : Nat := 0
  answers : List (String × String) := []
  isDemoQuestions : Bool := true
  waitingForVasiniConfirmation : Bool := false
  profileCompleted : Bool := false
  profileText : String := ""
  profileDetails : String := ""
  personalityType : Option String := none
  secondaryType : Option String := none
  typeCounts : List (String × Nat) := []
  usedAdvices : List String := []
deriving DecidableEq, Repr

/-- A fresh session: every field at its read default. -/
def Session.init : Session := {}

/-- Python dict assignment `answers[question_id] = value` on an ordered
association list. -/
def assocSet : List (String × String) → String → String → List (String × String)
  | [], k, v => [(k, v)]
  | (k', v') :: rest, k, v =>
    if k' = k then (k, v) :: rest else (k', v') :: assocSet rest k v

/-- The Python exceptions the embedded handlers can raise. -/
inductive PyError where
  | unboundLocal
  | indexError
deriving DecidableEq, Repr

/-- The user-visible sends and operator-visible log lines a handler
produces, reduced to their content-bearing payloads. -/
inductive Out where
  | showQuestion (idx : Nat) (text : String)
  | repromptQuestion (idx : Nat) (text : String)
  | vasiniIntro
  | interpretation (text : String)
  | errorLog (tag : String)
  | cancelNotice
  | retryPrompt
  | profileChunk (text : String)
  | mainMenu
  | profileNotFound
  | overwritePrompt
  | adviceText (text : String)
deriving DecidableEq, Repr

/-- The cancel button text checked first in `process_survey_answer`. -/
def cancelText : String := "❌ Отменить опрос"

/-- The confirmation button text for starting the Vasini test. -/
def readyText : String := "✅ Да, готов(а)"

/-- Log tag of the `except` branch around the interpretation lookup. -/
def interpretationErrorTag : String := "interpretation lookup failed"

/-- `complete_survey` (lines 443–571): classify, call the gateway;
on success store results, reset the aiogram state and send the profile
in chunks; on a gateway exception clear the whole session and show a
retry prompt.  `gateway` stands for `generate_profile`, already reduced
to `profile_data.get("details", "")` on success. -/
def completeSurvey (classify : Classifier) (gateway : Except Unit String)
    (answers : List (String × String)) (s : Session) : Session × List Out :=
  let r := classify answers
  match gateway with
  | .error _ => (Session.init, [Out.retryPrompt, Out.mainMenu])
  | .ok detailedProfile =>
    ({ s with fsmState := none
              answers := answers
              profileCompleted := true
              profileDetails := detailedProfile
              profileText := detailedProfile
              personalityType := some r.2.1
              secondaryType := some r.2.2
              typeCounts := r.1 },
     (sendProfileChunks detailedProfile.data).map
         (fun part => Out.profileChunk (String.mk part))
       ++ [Out.mainMenu])

/-- `process_survey_answer` (lines 170–441), the handler for any message
while the FSM state is `answering_questions`. -/
def processSurveyAnswer (cat : Catalog) (classify : Classifier)
    (gateway : Except Unit String) (text : String) (s : Session) :
    Except PyError (Session × List Out) :=
  if text = cancelText then
    .ok (Session.init, [Out.cancelNotice])
  else
    let qi := s.questionIndex
    if s.isDemoQuestions then
      match cat.demoQuestions[qi]? with
      | none => .error .indexError
      | some q =>
        let answers := assocSet s.answers q.id text
        if cat.demoQuestions.length ≤ qi + 1 then
          .ok ({ s with questionIndex := 0
                        answers := answers
                        isDemoQuestions := false
                        waitingForVasiniConfirmation := true },
               [Out.vasiniIntro])
        else
          match cat.demoQuestions[qi + 1]? with
          | none => .error .indexError
          | some nextQ =>
            .ok ({ s with questionIndex := qi + 1, answers := answers },
                 [Out.showQuestion (qi + 1) nextQ.text])
    else
      if s.waitingForVasiniConfirmation then
        if text = readyText then
          match cat.vasiniQuestions[qi]? with
          | none => .error .indexError
          | some q =>
            .ok ({ s with waitingForVasiniConfirmation := false },
                 [Out.showQuestion qi q.text])
        else
          -- the source's re-prompt block (lines 291–314) reads
          -- `current_question`, which is never assigned on this path
          .error .unboundLocal
      else
        match cat.vasiniQuestions[qi]? with
        | none => .error .indexError
        | some q =>
          match parseOption text.data with
          | none => .ok (s, [Out.repromptQuestion qi q.text])
          | some opt =>
            let optStr := String.mk [opt]
            let answers := assocSet s.answers q.id optStr
            let interpOuts :=
              match List.lookup optStr q.interpretations with
              | some interp => [Out.interpretation interp]
              | none => [Out.errorLog interpretationErrorTag]
            if cat.vasiniQuestions.length ≤ qi + 1 then
              let r := completeSurvey classify gateway answers s
              .ok (r.1, interpOuts ++ r.2)
            else
              match cat.vasiniQuestions[qi + 1]? with
              | none => .error .indexError
              | some nextQ =>
                .ok ({ s with questionIndex := qi + 1, answers := answers },
                     interpOuts ++ [Out.showQuestion (qi + 1) nextQ.text])

/-- `start_survey` (lines 53–120): with a completed profile it only asks
for confirmation; otherwise it shows the first demo question (an
IndexError on an empty catalog happens before the state is set) and
enters `answering_questions`. -/
def startSurveyFn (cat : Catalog) (s : Session) : Session × List Out :=
  if s.profileCompleted then (s, [Out.overwritePrompt])
  else
    match cat.demoQuestions[0]? with
    | none => (s, [])
    | some q =>
      ({ s with fsmState := some .answeringQuestions
                questionIndex := 0
                answers := []
                isDemoQuestions := true },
       [Out.showQuestion 0 q.text])

/-- `show_profile_details` (lines 664–750): a missing or shorter-than-20
character stored profile is reported as not found; otherwise the text is
sent, chunked when longer than `maxMessageLength`. -/
def showProfileDetails (s : Session) : List Out :=
  if s.profileDetails.length < 20 then [Out.profileNotFound]
  else
    (sendProfileChunks s.profileDetails.data).map
        (fun part => Out.profileChunk (String.mk part))
      ++ [Out.mainMenu]

def fallbackAdviceTable : List (String × List String) :=
  [("Интеллектуальный",
   ["🧠 Запланируйте 15-20 минут в день для чтения материалов по интересующей вас теме. Это поможет удовлетворить вашу потребность в интеллектуальном развитии.", "🧩 Попробуйте метод «пяти почему» при анализе проблемы — задавайте вопрос «почему» пять раз подряд, чтобы докопаться до первопричины."]),
  ("Эмоциональный",
   ["📓 Практикуйте «эмоциональный дневник»: записывайте свои эмоции в течение дня и их триггеры. Это помогает лучше понимать свои чувства и реакции.", "🧘 Используйте технику «дыхание 4-7-8»: вдох на 4 счета, задержка на 7, выдох на 8. Это эффективно снижает тревожность и помогает восстановить эмоциональный баланс."]),
  ("Практический",
   ["🐸 Используйте технику «ешьте лягушку»: начинайте день с самой сложной и неприятной задачи, и остальной день пройдет более продуктивно.", "⏱️ Применяйте правило «двух минут»: если задача требует менее двух минут, сделайте ее сразу, не откладывая — это значительно сократит ваш список дел."]),
  ("Творческий",
   ["📝 Практикуйте «утренние страницы»: после пробуждения напишите три страницы текста без цензуры и редактирования. Это стимулирует творческое мышление.", "🔄 Используйте технику «случайное слово»: выберите любое слово из словаря и попробуйте связать его с задачей, над которой работаете, чтобы найти новые идеи."])]

def keywordsTable : List (String × List String) :=
  [("Интеллектуальный",
   ["анализ", "логика", "мышление", "интеллект", "знания", "обучение", "информация", "понимание", "исследование", "концепции", "стратегическое мышление", "критическое мышление", "абстрактное мышление", "когнитивные процессы", "рациональность", "любознательность"]),
  ("Эмоциональный",
   ["эмоции", "чувства", "эмпатия", "сопереживание", "отношения", "понимание других", "эмоциональный интеллект", "интуиция", "настроение", "гармония", "самосознание", "саморегуляция", "внутренний мир", "эмоциональная глубина", "чувствительность", "психологическая гибкость"]),
  ("Практический",
   ["организация", "планирование", "эффективность", "результат", "действие", "дисциплина", "методичность", "пунктуальность", "продуктивность", "цели", "структура", "процессы", "упорядоченность", "последовательность", "практичность", "прагматизм", "конкретика"]),
  ("Творческий",
   ["творчество", "креативность", "воображение", "идеи", "инновации", "оригинальность", "интуиция", "вдохновение", "эстетика", "экспрессия", "искусство", "дизайн", "нестандартное мышление", "творческий потенциал", "визуализация", "новаторство", "экспериментирование"]),
  ("Аналитический тип",
   ["анализ данных", "аналитика", "системный подход", "детали", "точность", "структурирование", "классификация", "оценка", "закономерности", "алгоритмы", "методология", "верификация", "сравнение", "измерение", "исследование", "аргументация", "факты", "логические связи"])]

def aspectsTable : List (String × List String) :=
  [("Интеллектуальный",
   ["аналитическому мышлению", "обработке информации", "стратегическому планированию", "концептуальному мышлению", "поиску закономерностей", "систематизации знаний", "критическому анализу", "логическим рассуждениям", "глубокому пониманию", "абстрактному мышлению", "поиску связей между концепциями", "интеллектуальной любознательности"]),
  ("Эмоциональный",
   ["эмпатии", "эмоциональному восприятию", "чувственному опыту", "эмоциональному самоанализу", "глубоким переживаниям", "интуитивному пониманию", "эмоциональной осознанности", "сопереживанию", "построению глубоких отношений", "эмоциональной восприимчивости", "эмоциональному резонансу", "пониманию чувств других"]),
  ("Практический",
   ["организованности", "структурированию задач", "достижению конкретных результатов", "эффективному планированию", "практическому подходу", "детальному анализу", "последовательным действиям", "конкретным шагам", "организации процессов", "управлению ресурсами", "оптимизации деятельности", "доведению дел до конца"]),
  ("Творческий",
   ["нестандартному мышлению", "творческой свободе", "генерации новых идей", "креативному подходу", "образному мышлению", "творческой визуализации", "поиску уникальных решений", "эстетическому восприятию", "оригинальности", "творческому самовыражению", "инновационным подходам", "дивергентному мышлению"]),
  ("Аналитический тип",
   ["детальному анализу", "систематизации информации", "выявлению закономерностей", "точной оценке данных", "методологическому подходу", "структурированию сложных проблем", "последовательной аргументации", "построению логических моделей", "фактологическому анализу", "исследовательскому мышлению", "категоризации", "точности формулировок"])]

def emojiTable : List (String × List String) :=
  [("Интеллектуальный",
   ["🧠", "📚", "🔍", "🧩", "📝"]),
  ("Эмоциональный",
   ["❤️", "🧘", "🙏", "🌱", "🫂"]),
  ("Практический",
   ["⏱️", "✅", "📊", "🚫", "📋"]),
  ("Творческий",
   ["🎨", "🔄", "🌈", "🧠", "🎭"]),
  ("Аналитический тип",
   ["📊", "🔍", "📈", "🧮", "📋"])]

def techniquesTable : List (String × List String) :=
  [("Интеллектуальный",
   ["технику глубокого чтения", "метод интервального повторения", "технику создания ментальных карт", "метод Фейнмана", "технику активного вопрошания", "SQ3R метод для работы с текстами", "технику поиска межпредметных связей", "дебаты с самим собой", "технику ведения интеллектуального дневника", "метод соединения идей"]),
  ("Эмоциональный",
   ["практику осознанности", "технику эмоционального дистанцирования", "методику прогрессивной мышечной релаксации", "практику благодарности", "технику эмоционального картирования", "метод «заземления» эмоций", "журнал эмоций", "практику сострадания к себе", "технику эмоционального резонанса", "метод переключения эмоциональных состояний"]),
  ("Практический",
   ["систему Getting Things Done", "технику Помодоро", "метод «3-2-1»", "технику единой задачи", "блокирование времени", "правило двух минут", "технику контекстных списков", "еженедельный обзор задач", "метод PARA для организации информации", "технику выравнивания энергии"]),
  ("Творческий",
   ["технику случайных стимулов", "метод шести шляп", "технику творческих ограничений", "метод мозгового штурма наоборот", "практику творческих комбинаций", "метод синектики", "технику \x27что если\x27", "метод SCAMPER", "технику дивергентного мышления", "метод случайных ассоциаций"]),
  ("Аналитический тип",
   ["технику декомпозиции сложных проблем", "метод SWOT-анализа", "технику критериального ранжирования", "методологию 5W1H", "технику последовательной декомпозиции", "прием проверки противоположных гипотез", "технику анализа корневых причин", "метод систематической проверки фактов", "прием построения причинно-следственных диаграмм", "метод ABC-анализа"])]

def contextsTable : List (String × List String) :=
  [("Интеллектуальный",
   ["в процессе обучения новому", "при работе со сложной информацией", "при подготовке к важной презентации", "во время интеллектуального застоя", "для улучшения запоминания", "при анализе сложных проблем", "для развития критического мышления", "при работе с абстрактными концепциями", "для систематизации знаний", "при освоении новой области знаний"]),
  ("Эмоциональный",
   ["в стрессовых ситуациях", "при общении с сложными людьми", "когда вы чувствуете эмоциональное выгорание", "в моменты тревоги", "для улучшения отношений с близкими", "при эмоциональных перепадах", "в ситуациях конфликта", "для усиления позитивных эмоций", "во время важных переговоров", "в периоды эмоциональной нестабильности"]),
  ("Практический",
   ["при большом объеме задач", "в начале рабочего дня", "при работе над долгосрочными проектами", "когда чувствуете прокрастинацию", "при планировании сложных задач", "для повышения личной эффективности", "при внедрении новых привычек", "при управлении несколькими проектами", "для достижения баланса работы и отдыха", "при оптимизации рабочих процессов"]),
  ("Творческий",
   ["при работе над творческими проектами", "когда нужны нестандартные решения", "в моменты творческого блока", "при генерации новых идей", "для развития творческого мышления", "когда нужно преодолеть шаблонное мышление", "для нахождения новых подходов к старым проблемам", "при разработке инноваций", "в коллективном творческом процессе", "для расширения границ мышления"]),
  ("Аналитический тип",
   ["при анализе сложных данных", "когда нужно принять обоснованное решение", "при необходимости объективной оценки", "во время сбора и анализа информации", "для выявления скрытых закономерностей", "при разработке аналитических моделей", "для построения прогнозов", "при валидации гипотез", "в ситуациях, требующих точности и объективности", "при решении многофакторных задач"])]

def resultsTable : List (String × List String) :=
  [("Интеллектуальный",
   ["глубину понимания", "долгосрочное запоминание", "аналитические способности", "когнитивную гибкость", "критическое мышление", "способность к синтезу информации", "интеллектуальную выносливость", "качество принимаемых решений", "скорость обработки информации", "концептуальное мышление"]),
  ("Эмоциональный",
   ["эмоциональную устойчивость", "глубину эмпатии", "эмоциональный интеллект", "способность к самосостраданию", "качество отношений", "эмоциональное благополучие", "способность к регуляции эмоций", "осознанность в отношениях", "внутреннюю гармонию", "резилиентность"]),
  ("Практический",
   ["личную продуктивность", "эффективность рабочих процессов", "достижение целей", "управление временем", "жизненный баланс", "организационные навыки", "способность доводить дела до конца", "качество результатов", "стабильность рабочих привычек", "уверенность в принятии решений"]),
  ("Творческий",
   ["творческую продуктивность", "оригинальность идей", "способность к нестандартному мышлению", "инновационный потенциал", "творческую уверенность", "креативное решение проблем", "гибкость мышления", "способность видеть возможности", "творческую смелость", "расширение творческих горизонтов"]),
  ("Аналитический тип",
   ["точность анализа", "объективность суждений", "глубину исследования", "обоснованность выводов", "эффективность системного подхода", "способность выявлять закономерности", "качество аналитических моделей", "методологическую точность", "достоверность результатов", "способность к комплексной оценке"])]

/-- The fixed default type used by every fallback lookup. -/
def defaultType : String := "Интеллектуальный"

/-- The known personality-type keys, in dictionary order. -/
def typeKeys : List String :=
  ["Интеллектуальный", "Эмоциональный", "Практический", "Творческий",
   "Аналитический тип"]

/-- `all_keywords`: the keyword lists of every type concatenated in
dictionary order. -/
def allKeywords : List String := (keywordsTable.map Prod.snd).flatten

/-- `keyword.lower() in profile_text.lower()`. -/
def containsKeyword (profileText kw : String) : Bool :=
  hasInfix (pyLower kw).data (pyLower profileText).data

/-- The count a found-keyword tally gives to one type name. -/
def keywordCountFor (found : List String) (tname : String) : Nat :=
  found.countP (fun kw =>
    (((List.lookup tname keywordsTable).getD []).map pyLower).contains (pyLower kw))

/-- Python `max(items, key=...)` over a name list: the first name whose
value is maximal (`max` keeps the earliest maximal element). -/
def maxByFirst (f : String → Nat) : List String → String
  | [] => ""
  | t :: ts => ts.foldl (fun best x => if f best < f x then x else best) t

/-- `extract_key_aspects` (lines 1063–1189). -/
def extractKeyAspects (profileText personalityType : String) : List String :=
  let foundKeywords := allKeywords.filter (fun kw => containsKeyword profileText kw)
  if foundKeywords = [] then
    (List.lookup personalityType aspectsTable).getD
      ((List.lookup defaultType aspectsTable).getD [])
  else
    let dominantType := maxByFirst (keywordCountFor foundKeywords) (keywordsTable.map Prod.fst)
    let dominantAspects :=
      (List.lookup dominantType aspectsTable).getD
        ((List.lookup defaultType aspectsTable).getD [])
    let personalityAspects :=
      (List.lookup personalityType aspectsTable).getD
        ((List.lookup defaultType aspectsTable).getD [])
    if dominantType ≠ personalityType then personalityAspects ++ dominantAspects
    else personalityAspects

/-- `random.choice` with the injectable index source: entry
`pick k mod length` of the pool. -/
def chooseFrom (pick : Nat → Nat) (k : Nat) (pool : List String) : String :=
  pool.getD (pick k % pool.length) ""

/-- The five pools `generate_unique_advice` samples from. -/
structure Pools where
  emojiPool : List String
  aspectPool : List String
  techniquePool : List String
  contextPool : List String
  resultPool : List String
deriving DecidableEq, Repr

/-- Inner fallback of the emoji lookup. -/
def fallbackEmoji : List String := ["💡"]

/-- Inner fallback of the technique lookup. -/
def fallbackTechnique : List String := ["практику саморазвития"]

/-- Inner fallback of the context lookup. -/
def fallbackContext : List String := ["в повседневной жизни"]

/-- Inner fallback of the result lookup. -/
def fallbackResult : List String := ["эффективность"]

/-- Replacement aspect list when extraction yields nothing. -/
def fallbackAspect : List String := ["саморазвитию"]

/-- The pools as `generate_unique_advice` resolves them: every
dictionary read is `table.get(personality_type, table.get(default, fb))`,
and the aspect pool comes from `extract_key_aspects` (with the
`["саморазвитию"]` replacement when empty). -/
def poolsOf (profileText personalityType : String) : Pools :=
  let aspects0 := extractKeyAspects profileText personalityType
  { emojiPool := (List.lookup personalityType emojiTable).getD
      ((List.lookup defaultType emojiTable).getD fallbackEmoji)
    aspectPool := if aspects0 = [] then fallbackAspect else aspects0
    techniquePool := (List.lookup personalityType techniquesTable).getD
      ((List.lookup defaultType techniquesTable).getD fallbackTechnique)
    contextPool := (List.lookup personalityType contextsTable).getD
      ((List.lookup defaultType contextsTable).getD fallbackContext)
    resultPool := (List.lookup personalityType resultsTable).getD
      ((List.lookup defaultType resultsTable).getD fallbackResult) }

/-- Literal pieces of the advice f-string template. -/
def tplAspect : String := " Учитывая вашу склонность к "

/-- Template piece before the technique. -/
def tplTechnique : String := ", попробуйте "

/-- Template piece before the result. -/
def tplResult : String := ", чтобы усилить "

/-- Template piece before the context. -/
def tplContext : String := ". Это особенно полезно "

/-- Template closing period. -/
def tplEnd : String := "."

/-- The advice sentence template (the aspect is lowercased). -/
def composeAdvice (emoji aspect technique result context : String) : String :=
  emoji ++ tplAspect ++ pyLower aspect ++ tplTechnique ++ technique ++ tplResult
    ++ result ++ tplContext ++ context ++ tplEnd

/-- The advice composed at attempt `j`.  The initial composition (j = 0)
draws emoji, aspect, technique, context, result in that call order; each
retry draws aspect, technique, context, result, emoji. -/
def adviceAt (pick : Nat → Nat) (P : Pools) : Nat → String
  | 0 =>
    composeAdvice (chooseFrom pick 0 P.emojiPool) (chooseFrom pick 1 P.aspectPool)
      (chooseFrom pick 2 P.techniquePool) (chooseFrom pick 4 P.resultPool)
      (chooseFrom pick 3 P.contextPool)
  | j + 1 =>
    composeAdvice (chooseFrom pick (5 * (j + 1) + 4) P.emojiPool)
      (chooseFrom pick (5 * (j + 1)) P.aspectPool)
      (chooseFrom pick (5 * (j + 1) + 1) P.techniquePool)
      (chooseFrom pick (5 * (j + 1) + 3) P.resultPool)
      (chooseFrom pick (5 * (j + 1) + 2) P.contextPool)

/-- The reject-and-resample loop:
`while advice in history and attempts < 5`. -/
def adviceLoop (pick : Nat → Nat) (P : Pools) (history : List String)
    (attempts : Nat) (advice : String) : String :=
  if h : advice ∈ history ∧ attempts < 5 then
    adviceLoop pick P history (attempts + 1) (adviceAt pick P (attempts + 1))
  else advice
termination_by 5 - attempts
decreasing_by simp_wf; omega

/-- `generate_unique_advice` (lines 1191–1379). -/
def generateUniqueAdvice (pick : Nat → Nat) (profileText personalityType : String)
    (history : List String) : String :=
  adviceLoop pick (poolsOf profileText personalityType) history 0
    (adviceAt pick (poolsOf profileText personalityType) 0)

/-- The canned list the fallback mode draws from for the default type. -/
def intellectualFallback : List String :=
  (List.lookup defaultType fallbackAdviceTable).getD []

/-- `get_personalized_advice` (lines 1013–1061): with no profile text,
one uniform draw from the per-type canned list (default-type list when
the type is unknown); otherwise `generate_unique_advice`. -/
def getPersonalizedAdvice (pick : Nat → Nat) (personalityType profileText : String)
    (usedAdvices : List String) : String :=
  if profileText = "" then
    chooseFrom pick 0 ((List.lookup personalityType fallbackAdviceTable).getD
      intellectualFallback)
  else generateUniqueAdvice pick profileText personalityType usedAdvices

/-- `get_advice_callback` (lines 1382–1435): read the session with its
defaults, produce an advice, append it to `used_advices` and keep the
most recent 20. -/
def getAdviceCallback (pick : Nat → Nat) (s : Session) : Session × List Out :=
  let personalityType := s.personalityType.getD defaultType
  let advice := getPersonalizedAdvice pick personalityType s.profileDetails s.usedAdvices
  let usedAdvices := s.usedAdvices ++ [advice]
  let trimmed :=
    if 20 < usedAdvices.length then usedAdvices.drop (usedAdvices.length - 20)
    else usedAdvices
  ({ s with usedAdvices := trimmed }, [Out.adviceText advice])

/-- The session-mutating inbound events of this module, carrying the
external collaborators they consult. -/
inductive Event where
  | startSurvey
  | confirmSurveyCb
  | cancelSurveyCb
  | message (text : String) (classify : Classifier) (gateway : Except Unit String)
  | cancelCommand
  | restartSurveyCb
  | confirmProfileReset
  | cancelProfileReset
  | mainMenuCb
  | getAdviceCb (pick : Nat → Nat)
  | commandAdvice (pick : Nat → Nat)
  | commandProfile
  | showDetailsCb
  | viewProfileCb

/-- The session transition each event performs (handlers that only send
messages leave the session unchanged; a handler exception leaves the
session unchanged). -/
def applyEvent (cat : Catalog) (e : Event) (s : Session) : Session :=
  match e with
  | .startSurvey =>
    if s.fsmState = some .answeringQuestions then s else (startSurveyFn cat s).1
  | .confirmSurveyCb =>
    (startSurveyFn cat
      { s with answers := [], profileCompleted := false, profileText := "",
               personalityType := none }).1
  | .cancelSurveyCb => s
  | .message text classify gateway =>
    if s.fsmState = some .answeringQuestions then
      match processSurveyAnswer cat classify gateway text s with
      | .ok r => r.1
      | .error _ => s
    else s
  | .cancelCommand =>
    if s.fsmState = some .answeringQuestions then Session.init else s
  | .restartSurveyCb => s
  | .confirmProfileReset =>
    (startSurveyFn cat
      { s with answers := [], profileCompleted := false, profileText := "",
               profileDetails := "", personalityType := none,
               waitingForVasiniConfirmation := false, questionIndex := 0,
               isDemoQuestions := true }).1
  | .cancelProfileReset => s
  | .mainMenuCb => { s with fsmState := none }
  | .getAdviceCb pick => (getAdviceCallback pick s).1
  | .commandAdvice pick => if s.profileCompleted then (getAdviceCallback pick s).1 else s
  | .commandProfile =>
    if s.profileCompleted then
      if s.profileDetails.length < 20 then s
      else { s with fsmState := some .profileViewing }
    else s
  | .showDetailsCb => s
  | .viewProfileCb => s

/-- The sessions the event system can produce from a fresh session. -/
inductive Reachable (cat : Catalog) : Session → Prop where
  | init : Reachable cat Session.init
  | step (e : Event) (s : Session) : Reachable cat s → Reachable cat (applyEvent cat e s)

/-- Concrete inventory question whose interpretations lack the key `A`. -/
def q1 : Question :=
  { id := "q1", text := "вопрос 1",
    options := [("A", "вариант A"), ("B", "вариант B")],
    interpretations := [("B", "интерпретация B")] }

/-- Concrete second inventory question. -/
def q2 : Question :=
  { id := "q2", text := "вопрос 2",
    options := [("A", "вариант A")],
    interpretations := [("A", "интерпретация A")] }

/-- Concrete demo question. -/
def demoQ : Question :=
  { id := "d1", text := "демо вопрос", options := [], interpretations := [] }

/-- A small concrete catalog for witnesses. -/
def sampleCatalog : Catalog :=
  { demoQuestions := [demoQ], vasiniQuestions := [q1, q2] }

/-- A trivial classifier for witnesses. -/
def zeroClassifier : Classifier := fun _ => ([], "", "")

/-- A classifier with a nonempty tally for witnesses. -/
def sampleClassifier : Classifier :=
  fun _ => ([("Интеллектуальный", 3)], "Интеллектуальный", "Практический")

/-- An unparseable message. -/
def helloText : String := "hello"

/-- A message the parser reads as option `A`. -/
def letterAText : String := "A"

/-- A degenerate sub-20-character gateway response. -/
def shortProfile : String := "short"

/-- A personality type outside the known enumeration. -/
def unknownType : String := "Неизвестный"

/-- A session sitting in the inventory-answer phase at question 0. -/
def sInv : Session :=
  { Session.init with fsmState := some .answeringQuestions, isDemoQuestions := false }

/-- The session transition of one processed message, the error case
leaving the session unchanged. -/
def stepSession (cat : Catalog) (classify : Classifier) (gateway : Except Unit String)
    (text : String) (s : Session) : Session :=
  match processSurveyAnswer cat classify gateway text s with
  | .ok r => r.1
  | .error _ => s

-- ## Theorems

/-- C1, counterexample.  The input `"B a"` matches the accepted format
`"<letter> "` for the letter `B` (and rule-order priority, as the claim
reads, would therefore record `B`, as `parseOptionSpec` shows), but the
code iterates letters in the outer loop and rules in the inner loop, so
the isolated-token rule for `A` fires first and `A` is recorded. -/
theorem parse_rule_priority_counterexample :
    ruleSpaced 'B' ['B', ' ', 'a'] = true ∧
    parseOption ['B', ' ', 'a'] = some 'A' ∧
    parseOptionSpec ['B', ' ', 'a'] = some 'B' := by decide

/-- C1, amended.  The parser iterates the letters `A, B, C, D` in order
and, for each letter, applies the four rules in order; the recorded
letter is the first letter for which some rule succeeds.  Consequently,
for an input that matches an accepted format for exactly one letter (no
other letter matches any of the four rules), the parser extracts that
letter. -/
theorem parse_extracts_unique_letter (t : List Char) (opt : Char)
    (hmem : opt ∈ optionLetters)
    (hyes : matchesOption opt t = true)
    (hno : ∀ c ∈ optionLetters, c ≠ opt → matchesOption c t = false) :
    parseOption t = some opt := by
  have hA : 'A' ∈ optionLetters := by decide
  have hB : 'B' ∈ optionLetters := by decide
  have hC : 'C' ∈ optionLetters := by decide
  have hD : 'D' ∈ optionLetters := by decide
  simp only [optionLetters, List.mem_cons, List.not_mem_nil, or_false] at hmem
  rcases hmem with h | h | h | h <;> subst h <;>
    simp only [parseOption, optionLetters, List.find?] <;>
    simp [hyes, hno 'A' hA, hno 'B' hB, hno 'C' hC, hno 'D' hD]

/-- C1, witness: the clean input `"B: ok"` matches only the letter `B`,
and the parser records `B`. -/
theorem parse_extracts_unique_letter_witness :
    matchesOption 'B' ['B', ':', ' ', 'o', 'k'] = true ∧
    parseOption ['B', ':', ' ', 'o', 'k'] = some 'B' :=
  ⟨by decide,
   parse_extracts_unique_letter ['B', ':', ' ', 'o', 'k'] 'B' (by decide) (by decide)
     (by decide)⟩

theorem lookup_assocSet (l : List (String × String)) (k v : String) :
    List.lookup k (assocSet l k v) = some v := by
  induction l with
  | nil => simp [assocSet, List.lookup]
  | cons p ps ih =>
    obtain ⟨k', v'⟩ := p
    by_cases hk : k' = k
    · subst hk
      simp [assocSet, List.lookup]
    · have hne : (k == k') = false := beq_eq_false_iff_ne.mpr (Ne.symm hk)
      simp [assocSet, hk, List.lookup, hne, ih]

/-- C2, code bug.  In the awaiting-inventory-confirmation state, a
message that is neither the affirmative confirmation nor the cancel
signal reaches the re-prompt block, whose first statement reads the
local `current_question` — a variable never assigned on this path — so
the handler raises `UnboundLocalError`: no re-prompt is sent (the
session is left unchanged only because the exception aborts the
handler). -/
theorem confirmation_reprompt_code_bug :
    processSurveyAnswer sampleCatalog zeroClassifier (.error ()) helloText
        { Session.init with fsmState := some .answeringQuestions,
                            isDemoQuestions := false,
                            waitingForVasiniConfirmation := true }
      = .error .unboundLocal := rfl

/-- C3, counterexample.  A successful gateway response of fewer than 20
characters does not abort completion: the session is marked completed,
the short text is stored as the profile, and the classifier tally is
retained — contradicting the claim that such a response aborts
completion with no residual state. -/
theorem short_profile_completes_counterexample :
    (completeSurvey sampleClassifier (.ok shortProfile) [] Session.init).1.profileCompleted
        = true ∧
    (completeSurvey sampleClassifier (.ok shortProfile) [] Session.init).1.profileText
        = shortProfile ∧
    shortProfile.length < 20 ∧
    (completeSurvey sampleClassifier (.ok shortProfile) [] Session.init).1.typeCounts
        ≠ [] := by
  refine ⟨rfl, rfl, by decide, by decide⟩

/-- C3, amended.  A gateway error during completion aborts it: the
session is cleared (not completed, answers discarded, idle state, no
residual type counts or profile text) and a retry prompt is shown.  A
successful response shorter than 20 characters does not abort
completion; it is only treated as a "profile not found" condition at
display time. -/
theorem synthesis_failure_aborts (classify : Classifier)
    (answers : List (String × String)) (s : Session) (details : String)
    (hshort : details.length < 20) :
    completeSurvey classify (.error ()) answers s
        = (Session.init, [Out.retryPrompt, Out.mainMenu]) ∧
    Session.init.profileCompleted = false ∧
    Session.init.typeCounts = [] ∧
    Session.init.profileText = "" ∧
    Session.init.fsmState = none ∧
    Session.init.answers = [] ∧
    showProfileDetails (completeSurvey classify (.ok details) answers s).1
        = [Out.profileNotFound] := by
  refine ⟨rfl, rfl, rfl, rfl, rfl, rfl, ?_⟩
  simp [completeSurvey, showProfileDetails, hshort]

/-- C3, witness: at the concrete five-character response the amended
statement holds. -/
theorem synthesis_failure_aborts_witness :
    shortProfile.length < 20 ∧
    completeSurvey zeroClassifier (.error ()) [] Session.init
        = (Session.init, [Out.retryPrompt, Out.mainMenu]) ∧
    showProfileDetails (completeSurvey zeroClassifier (.ok shortProfile) [] Session.init).1
        = [Out.profileNotFound] := by
  have h := synthesis_failure_aborts zeroClassifier [] Session.init shortProfile (by decide)
  exact ⟨by decide, h.1, h.2.2.2.2.2.2⟩

/-- C4.  An unparseable message in the inventory-answer phase is the
identity on the session: the handler returns the unchanged session
together with a re-prompt showing the same question, so re-submitting it
any number of times never changes `question_index` or `answers`. -/
theorem unparseable_answer_identity (cat : Catalog) (classify : Classifier)
    (gateway : Except Unit String) (text : String) (s : Session) (q : Question)
    (hcancel : ¬ text = cancelText)
    (hdemo : s.isDemoQuestions = false)
    (hwait : s.waitingForVasiniConfirmation = false)
    (hq : cat.vasiniQuestions[s.questionIndex]? = some q)
    (hparse : parseOption text.data = none) :
    processSurveyAnswer cat classify gateway text s
        = .ok (s, [Out.repromptQuestion s.questionIndex q.text]) ∧
    ∀ n : Nat, (stepSession cat classify gateway text)^[n] s = s := by
  have hstep : processSurveyAnswer cat classify gateway text s
      = .ok (s, [Out.repromptQuestion s.questionIndex q.text]) := by
    unfold processSurveyAnswer
    rw [if_neg hcancel]
    simp only [hdemo, hwait, hq, hparse, Bool.false_eq_true, if_false]
  refine ⟨hstep, ?_⟩
  intro n
  induction n with
  | zero => rfl
  | succ n ih =>
    rw [Function.iterate_succ_apply, stepSession, hstep]
    exact ih

/-- C4, witness: the concrete message `"hello"` at inventory question 0
of the sample catalog is rejected, the state is unchanged after three
re-submissions, and question 0 is re-shown. -/
theorem unparseable_answer_identity_witness :
    processSurveyAnswer sampleCatalog zeroClassifier (.error ()) helloText sInv
        = .ok (sInv, [Out.repromptQuestion 0 q1.text]) ∧
    (stepSession sampleCatalog zeroClassifier (.error ()) helloText)^[3] sInv = sInv := by
  have h := unparseable_answer_identity sampleCatalog zeroClassifier (.error ())
      helloText sInv q1 (by decide) rfl rfl rfl (by decide)
  exact ⟨h.1, h.2 3⟩

/-- C9, counterexample.  With a question whose interpretations lack the
answered option `A`, the handler does not fail: it logs an error, records
the answer `A` anyway, and advances to the next question — so the
missing mapping is papered over rather than fatal, and the recorded
option key does not exist in `interpretations`. -/
theorem missing_interpretation_counterexample :
    processSurveyAnswer sampleCatalog zeroClassifier (.error ()) letterAText sInv
        = .ok ({ sInv with questionIndex := 1, answers := [("q1", "A")] },
               [Out.errorLog interpretationErrorTag, Out.showQuestion 1 q2.text]) ∧
    List.lookup letterAText q1.interpretations = none ∧
    List.lookup (q1.id) [("q1", "A")] = some letterAText := ⟨rfl, rfl, rfl⟩

/-- C9, amended.  A missing option-to-interpretation mapping is caught:
an error is logged for the operator and the interpretation message is
skipped, but processing is not aborted — the answer is recorded under
the unmapped option key and the cursor advances to the next question.
The code does not enforce that a recorded option key exists in the
question's `interpretations`. -/
theorem missing_interpretation_nonfatal (cat : Catalog) (classify : Classifier)
    (gateway : Except Unit String) (text : String) (s : Session)
    (q nextQ : Question) (opt : Char)
    (hcancel : ¬ text = cancelText)
    (hdemo : s.isDemoQuestions = false)
    (hwait : s.waitingForVasiniConfirmation = false)
    (hq : cat.vasiniQuestions[s.questionIndex]? = some q)
    (hparse : parseOption text.data = some opt)
    (hmiss : List.lookup (String.mk [opt]) q.interpretations = none)
    (hnext : ¬ cat.vasiniQuestions.length ≤ s.questionIndex + 1)
    (hnq : cat.vasiniQuestions[s.questionIndex + 1]? = some nextQ) :
    processSurveyAnswer cat classify gateway text s
        = .ok ({ s with questionIndex := s.questionIndex + 1,
                        answers := assocSet s.answers q.id (String.mk [opt]) },
               [Out.errorLog interpretationErrorTag,
                Out.showQuestion (s.questionIndex + 1) nextQ.text]) ∧
    List.lookup q.id (assocSet s.answers q.id (String.mk [opt]))
        = some (String.mk [opt]) := by
  constructor
  · unfold processSurveyAnswer
    rw [if_neg hcancel]
    simp only [hdemo, hwait, hq, hparse, hmiss, Bool.false_eq_true, if_false,
      if_neg hnext, hnq]
    rfl
  · exact lookup_assocSet s.answers q.id (String.mk [opt])

/-- C9, witness: the concrete answer `"A"` to the sample question with
no `A` interpretation. -/
theorem missing_interpretation_nonfatal_witness :
    parseOption letterAText.data = some 'A' ∧
    List.lookup (String.mk ['A']) q1.interpretations = none ∧
    processSurveyAnswer sampleCatalog zeroClassifier (.error ()) letterAText sInv
        = .ok ({ sInv with questionIndex := 1,
                           answers := assocSet (sInv.answers) (q1.id) (String.mk ['A']) },
               [Out.errorLog interpretationErrorTag, Out.showQuestion 1 q2.text]) ∧
    List.lookup (q1.id) (assocSet (sInv.answers) (q1.id) (String.mk ['A']))
        = some (String.mk ['A']) := by
  have h := missing_interpretation_nonfatal sampleCatalog zeroClassifier (.error ())
      letterAText sInv q1 q2 'A' (by decide) rfl rfl rfl (by decide) rfl
      (by decide) rfl
  exact ⟨by decide, rfl, h.1, h.2⟩

theorem splitLines_ne_nil : ∀ t : List Char, splitLines t ≠ [] := by
  intro t
  cases t with
  | nil => simp [splitLines]
  | cons c cs =>
    simp only [splitLines]
    split
    · simp
    · split <;> simp

theorem splitLines_flatten : ∀ t : List Char,
    ((splitLines t).map (fun l => l ++ ['\n'])).flatten = t ++ ['\n'] := by
  intro t
  induction t with
  | nil => simp [splitLines]
  | cons c cs ih =>
    by_cases hc : c = '\n'
    · subst hc
      simp [splitLines, ih]
    · rcases hsc : splitLines cs with _ | ⟨l, ls⟩
      · exact absurd hsc (splitLines_ne_nil cs)
      · rw [hsc] at ih
        simp only [splitLines, hc, if_false, hsc]
        simp only [List.map_cons, List.flatten_cons] at ih ⊢
        rw [List.cons_append, List.cons_append]
        rw [List.append_assoc] at ih ⊢
        rw [ih]
        simp

theorem splitLines_no_newline : ∀ t : List Char,
    (∀ c ∈ t, ¬ c = '\n') → splitLines t = [t] := by
  intro t
  induction t with
  | nil => intro _; rfl
  | cons c cs ih =>
    intro h
    have hc : ¬ c = '\n' := h c (by simp)
    have hcs := ih (fun x hx => h x (by simp [hx]))
    simp [splitLines, hc, hcs]

theorem splitLines_two_lines (a b : List Char)
    (ha : ∀ c ∈ a, ¬ c = '\n') (hb : ∀ c ∈ b, ¬ c = '\n') :
    splitLines (a ++ '\n' :: b) = [a, b] := by
  induction a with
  | nil => simp [splitLines, splitLines_no_newline b hb]
  | cons c cs ih =>
    have hc : ¬ c = '\n' := ha c (by simp)
    have ih' := ih (fun x hx => ha x (by simp [hx]))
    simp [splitLines, hc, ih']

theorem chunk_fold_flatten :
    ∀ (lines : List (List Char)) (parts : List (List Char)) (current : List Char),
      ((lines.foldl chunkStep (parts, current)).1).flatten
          ++ (lines.foldl chunkStep (parts, current)).2
        = parts.flatten ++ current ++ ((lines.map (fun l => l ++ ['\n'])).flatten) := by
  intro lines
  induction lines with
  | nil => intro parts current; simp
  | cons l ls ih =>
    intro parts current
    rw [List.foldl_cons]
    by_cases hcond : current.length + l.length + 1 ≤ maxMessageLength
    · have hstep : chunkStep (parts, current) l = (parts, current ++ l ++ ['\n']) := by
        simp [chunkStep, hcond]
      rw [hstep, ih]
      simp [List.append_assoc]
    · have hstep : chunkStep (parts, current) l = (parts ++ [current], l ++ ['\n']) := by
        simp [chunkStep, hcond]
      rw [hstep, ih]
      simp [List.append_assoc]

theorem buildParts_flatten (lines : List (List Char)) :
    (buildParts lines).flatten = (lines.map (fun l => l ++ ['\n'])).flatten := by
  have h := chunk_fold_flatten lines [] []
  simp only [buildParts]
  split
  · rename_i hnil
    rw [hnil] at h
    simpa using h
  · simpa using h

theorem chunk_fold_inv :
    ∀ (lines : List (List Char)) (parts : List (List Char)) (current : List Char),
      (∀ l ∈ lines, l.length ≤ maxMessageLength - 1) →
      (∀ p ∈ parts, p.length ≤ maxMessageLength ∧ ∃ c0, p = c0 ++ ['\n']) →
      current.length ≤ maxMessageLength →
      (current = [] ∨ ∃ c0, current = c0 ++ ['\n']) →
      (∀ p ∈ (lines.foldl chunkStep (parts, current)).1,
          p.length ≤ maxMessageLength ∧ ∃ c0, p = c0 ++ ['\n']) ∧
        (lines.foldl chunkStep (parts, current)).2.length ≤ maxMessageLength ∧
        ((lines.foldl chunkStep (parts, current)).2 = [] ∨
          ∃ c0, (lines.foldl chunkStep (parts, current)).2 = c0 ++ ['\n']) := by
  intro lines
  induction lines with
  | nil =>
    intro parts current _ hp hc hc'
    exact ⟨hp, hc, hc'⟩
  | cons l ls ih =>
    intro parts current hl hp hc hc'
    have hll : l.length ≤ maxMessageLength - 1 := hl l (by simp)
    have hls : ∀ x ∈ ls, x.length ≤ maxMessageLength - 1 :=
      fun x hx => hl x (by simp [hx])
    rw [List.foldl_cons]
    by_cases hcond : current.length + l.length + 1 ≤ maxMessageLength
    · have hstep : chunkStep (parts, current) l = (parts, current ++ l ++ ['\n']) := by
        simp [chunkStep, hcond]
      rw [hstep]
      refine ih parts (current ++ l ++ ['\n']) hls hp ?_ (Or.inr ⟨current ++ l, rfl⟩)
      simp only [List.length_append, List.length_cons, List.length_nil]
      omega
    · have hstep : chunkStep (parts, current) l = (parts ++ [current], l ++ ['\n']) := by
        simp [chunkStep, hcond]
      rw [hstep]
      have hcur : current ≠ [] := by
        intro hemp
        apply hcond
        rw [hemp]
        simp only [List.length_nil, Nat.zero_add, maxMessageLength]
        simp only [maxMessageLength] at hll
        omega
      have hcurNL : ∃ c0, current = c0 ++ ['\n'] := by
        rcases hc' with h | h
        · exact absurd h hcur
        · exact h
      refine ih (parts ++ [current]) (l ++ ['\n']) hls ?_ ?_ (Or.inr ⟨l, rfl⟩)
      · intro p hpmem
        rcases List.mem_append.mp hpmem with h | h
        · exact hp p h
        · rcases List.mem_singleton.mp h with rfl
          exact ⟨hc, hcurNL⟩
      · simp only [List.length_append, List.length_cons, List.length_nil, maxMessageLength]
        simp only [maxMessageLength] at hll
        omega

theorem buildParts_bound (lines : List (List Char))
    (hl : ∀ l ∈ lines, l.length ≤ maxMessageLength - 1) :
    ∀ p ∈ buildParts lines, p.length ≤ maxMessageLength ∧ ∃ c0, p = c0 ++ ['\n'] := by
  have h := chunk_fold_inv lines [] [] hl (by simp) (by simp [maxMessageLength]) (Or.inl rfl)
  simp only [buildParts]
  split
  · exact h.1
  · rename_i hne
    intro p hpmem
    rcases List.mem_append.mp hpmem with hmem | hmem
    · exact h.1 p hmem
    · rcases List.mem_singleton.mp hmem with rfl
      refine ⟨h.2.1, ?_⟩
      rcases h.2.2 with hemp | hnl
      · exact absurd hemp hne
      · exact hnl

theorem oversize_line_chunk (t : List Char) (hlen : maxMessageLength < t.length)
    (hnl : ∀ c ∈ t, ¬ c = '\n') :
    sendProfileChunks t = [[], t ++ ['\n']] := by
  have hsplit := splitLines_no_newline t hnl
  have hchunk : chunkStep ([], []) t = ([[]], t ++ ['\n']) := by
    unfold chunkStep
    rw [if_neg]
    · rfl
    · intro h
      simp only [maxMessageLength, List.length_nil] at h
      simp only [maxMessageLength] at hlen
      omega
  have hbuild : buildParts [t] = [[], t ++ ['\n']] := by
    simp only [buildParts, List.foldl_cons, List.foldl_nil, hchunk]
    rw [if_neg]
    · rfl
    · intro h
      have h2 := congrArg List.length h
      rw [List.length_append] at h2
      simp only [List.length_cons, List.length_nil] at h2
      omega
  unfold sendProfileChunks
  rw [if_pos hlen]
  rw [hsplit, hbuild]

/-- C6, counterexample.  A 4001-character profile consisting of one line
triggers a split, and the chunking loop emits that whole line (plus the
appended newline) as a single 4002-character chunk — exceeding the
4000-character bound the claim asserts for every chunk (it also emits a
leading empty chunk). -/
theorem profile_chunking_counterexample :
    ∃ p ∈ sendProfileChunks (List.replicate 4001 'a'), maxMessageLength < p.length := by
  have hnl : ∀ c ∈ List.replicate 4001 'a', ¬ c = '\n' := by
    intro c hc
    rw [List.eq_of_mem_replicate hc]
    decide
  have hsend := oversize_line_chunk (List.replicate 4001 'a')
      (by rw [List.length_replicate]; simp only [maxMessageLength]; omega) hnl
  refine ⟨List.replicate 4001 'a' ++ ['\n'], ?_, ?_⟩
  · rw [hsend]
    exact List.mem_cons.mpr (Or.inr (List.mem_cons.mpr (Or.inl rfl)))
  · rw [List.length_append, List.length_replicate]
    simp only [maxMessageLength, List.length_cons, List.length_nil]
    omega

/-- C6, amended.  A profile of at most 4000 characters — including the
exactly-4000-character boundary — is always sent as a single chunk, and
a longer profile always triggers a split on line boundaries in which no
content is lost: the chunks concatenate to the whole profile followed by
one trailing newline.  Provided every line is at most 3999 characters,
every chunk is also at most 4000 characters and ends with a newline (so
chunk boundaries fall on line boundaries and no line is broken
mid-content).  A profile that is a single line longer than 4000
characters is instead emitted intact as one oversized chunk, preceded by
an empty chunk. -/
theorem profile_chunking_amended (text : List Char) :
    (text.length ≤ maxMessageLength → sendProfileChunks text = [text]) ∧
    (maxMessageLength < text.length →
      (sendProfileChunks text).flatten = text ++ ['\n']) ∧
    (maxMessageLength < text.length →
      (∀ l ∈ splitLines text, l.length ≤ maxMessageLength - 1) →
      ∀ p ∈ sendProfileChunks text,
        p.length ≤ maxMessageLength ∧ ∃ c0, p = c0 ++ ['\n']) ∧
    (maxMessageLength < text.length → (∀ c ∈ text, ¬ c = '\n') →
      sendProfileChunks text = [[], text ++ ['\n']]) := by
  refine ⟨?_, ?_, ?_, ?_⟩
  · intro h
    simp [sendProfileChunks, Nat.not_lt.mpr h]
  · intro h
    have hs : sendProfileChunks text = buildParts (splitLines text) := by
      simp [sendProfileChunks, h]
    rw [hs, buildParts_flatten, splitLines_flatten]
  · intro h hlines
    have hs : sendProfileChunks text = buildParts (splitLines text) := by
      simp [sendProfileChunks, h]
    rw [hs]
    exact buildParts_bound _ hlines
  · intro h hnl
    exact oversize_line_chunk text h hnl

/-- C6, witness: the amended conclusions at three concrete profiles — an
exactly-4000-character single-line profile is one chunk, a 5001-character
two-line profile (2500 characters per line) splits within the bound and
loses no content, and a 4001-character single-line profile is emitted as
an oversized chunk after an empty one. -/
theorem profile_chunking_amended_witness :
    ((List.replicate 4000 'x').length ≤ maxMessageLength ∧
      sendProfileChunks (List.replicate 4000 'x') = [List.replicate 4000 'x']) ∧
    (maxMessageLength
        < (List.replicate 2500 'a' ++ '\n' :: List.replicate 2500 'a').length ∧
      (∀ l ∈ splitLines (List.replicate 2500 'a' ++ '\n' :: List.replicate 2500 'a'),
          l.length ≤ maxMessageLength - 1) ∧
      (∀ p ∈ sendProfileChunks (List.replicate 2500 'a' ++ '\n' :: List.replicate 2500 'a'),
          p.length ≤ maxMessageLength ∧ ∃ c0, p = c0 ++ ['\n']) ∧
      (sendProfileChunks
          (List.replicate 2500 'a' ++ '\n' :: List.replicate 2500 'a')).flatten
        = (List.replicate 2500 'a' ++ '\n' :: List.replicate 2500 'a') ++ ['\n']) ∧
    ((∀ c ∈ List.replicate 4001 'b', ¬ c = '\n') ∧
      sendProfileChunks (List.replicate 4001 'b')
        = [[], List.replicate 4001 'b' ++ ['\n']]) := by
  have hone : (List.replicate 4000 'x').length ≤ maxMessageLength := by
    rw [List.length_replicate]
    simp only [maxMessageLength]
    omega
  have htwo : maxMessageLength
      < (List.replicate 2500 'a' ++ '\n' :: List.replicate 2500 'a').length := by
    rw [List.length_append, List.length_replicate, List.length_cons, List.length_replicate]
    simp only [maxMessageLength]
    omega
  have hnl : ∀ c ∈ List.replicate 2500 'a', ¬ c = '\n' := by
    intro c hc
    rw [List.eq_of_mem_replicate hc]
    decide
  have hsplit := splitLines_two_lines (List.replicate 2500 'a')
      (List.replicate 2500 'a') hnl hnl
  have hlines : ∀ l ∈ splitLines (List.replicate 2500 'a' ++ '\n' :: List.replicate 2500 'a'),
      l.length ≤ maxMessageLength - 1 := by
    rw [hsplit]
    intro l hl
    rcases List.mem_cons.mp hl with rfl | hl
    · simp only [List.length_replicate, maxMessageLength]
      omega
    · rcases List.mem_singleton.mp hl with rfl
      simp only [List.length_replicate, maxMessageLength]
      omega
  have hnlb : ∀ c ∈ List.replicate 4001 'b', ¬ c = '\n' := by
    intro c hc
    rw [List.eq_of_mem_replicate hc]
    decide
  have hthree : maxMessageLength < (List.replicate 4001 'b').length := by
    rw [List.length_replicate]
    simp only [maxMessageLength]
    omega
  refine ⟨⟨hone, (profile_chunking_amended (List.replicate 4000 'x')).1 hone⟩,
    ⟨htwo, hlines,
      (profile_chunking_amended _).2.2.1 htwo hlines,
      (profile_chunking_amended _).2.1 htwo⟩,
    ⟨hnlb, (profile_chunking_amended (List.replicate 4001 'b')).2.2.2 hthree hnlb⟩⟩

theorem completeSurvey_state (classify : Classifier) (gateway : Except Unit String)
    (answers : List (String × String)) (s : Session) :
    (completeSurvey classify gateway answers s).1 = Session.init ∨
      (completeSurvey classify gateway answers s).1.fsmState = none := by
  cases gateway with
  | error e => left; rfl
  | ok d => right; rfl

theorem processSurveyAnswer_preserves (cat : Catalog) (classify : Classifier)
    (gateway : Except Unit String) (text : String) (s s' : Session) (outs : List Out)
    (h : processSurveyAnswer cat classify gateway text s = .ok (s', outs)) :
    (s'.profileCompleted = s.profileCompleted ∧ s'.fsmState = s.fsmState) ∨
      s' = Session.init ∨ s'.fsmState = none := by
  unfold processSurveyAnswer at h
  dsimp only at h
  split at h
  · -- cancel branch
    rw [Except.ok.injEq, Prod.mk.injEq] at h
    right; left; exact h.1.symm
  · split at h
    · -- demo branch
      split at h
      · exact absurd h (by simp)
      · split at h
        · rw [Except.ok.injEq, Prod.mk.injEq] at h
          left; rw [← h.1]; exact ⟨rfl, rfl⟩
        · split at h
          · exact absurd h (by simp)
          · rw [Except.ok.injEq, Prod.mk.injEq] at h
            left; rw [← h.1]; exact ⟨rfl, rfl⟩
    · split at h
      · -- awaiting confirmation
        split at h
        · split at h
          · exact absurd h (by simp)
          · rw [Except.ok.injEq, Prod.mk.injEq] at h
            left; rw [← h.1]; exact ⟨rfl, rfl⟩
        · exact absurd h (by simp)
      · -- inventory answer
        split at h
        · exact absurd h (by simp)
        · split at h
          · rw [Except.ok.injEq, Prod.mk.injEq] at h
            left; rw [← h.1]; exact ⟨rfl, rfl⟩
          · split at h
            · rw [Except.ok.injEq, Prod.mk.injEq] at h
              rw [← h.1]
              right
              exact completeSurvey_state classify gateway _ s
            · split at h
              · exact absurd h (by simp)
              · rw [Except.ok.injEq, Prod.mk.injEq] at h
                left; rw [← h.1]; exact ⟨rfl, rfl⟩

theorem startSurveyFn_no_profile (cat : Catalog) (s : Session) :
    (startSurveyFn cat s).1 = s ∨ (startSurveyFn cat s).1.profileCompleted = false := by
  unfold startSurveyFn
  by_cases hpc : s.profileCompleted = true
  · rw [if_pos hpc]
    left; rfl
  · rw [if_neg hpc]
    cases hq : cat.demoQuestions[0]? with
    | none => left; rfl
    | some q =>
      right
      simpa using hpc

theorem getAdviceCallback_preserves (pick : Nat → Nat) (s : Session) :
    (getAdviceCallback pick s).1.fsmState = s.fsmState ∧
      (getAdviceCallback pick s).1.profileCompleted = s.profileCompleted := ⟨rfl, rfl⟩

/-- While a survey is being answered, no completed profile exists in the
session: entering `answering_questions` requires `profile_completed` to
be false (a prior profile is cleared beforehand only by the explicit
confirm-reset dialogs), and no mid-survey transition sets it. -/
theorem answering_implies_no_profile (cat : Catalog) (s : Session)
    (h : Reachable cat s) :
    s.fsmState = some FsmState.answeringQuestions → s.profileCompleted = false := by
  induction h with
  | init => intro hfsm; rfl
  | step e s hr ih =>
    cases e with
    | startSurvey =>
      simp only [applyEvent]
      split
      · exact ih
      · intro hfsm
        rcases startSurveyFn_no_profile cat s with heq | hnc
        · rw [heq] at hfsm ⊢; exact ih hfsm
        · exact hnc
    | confirmSurveyCb =>
      simp only [applyEvent]
      intro hfsm
      rcases startSurveyFn_no_profile cat
          { s with answers := [], profileCompleted := false, profileText := "",
                   personalityType := none } with heq | hnc
      · rw [heq]
      · exact hnc
    | cancelSurveyCb => exact ih
    | message text classify gateway =>
      simp only [applyEvent]
      split
      · rename_i hans
        split
        · rename_i r hok
          intro hfsm
          obtain ⟨s', outs⟩ := r
          rcases processSurveyAnswer_preserves cat classify gateway text s s' outs hok
            with ⟨hpc, hfs⟩ | hinit | hnone
          · rw [hpc]
            apply ih
            rw [← hfs]
            exact hfsm
          · rw [hinit]at hfsm ⊢; rfl
          · rw [hnone] at hfsm; exact absurd hfsm (by simp)
        · exact ih
      · exact ih
    | cancelCommand =>
      simp only [applyEvent]
      split
      · intro _; rfl
      · exact ih
    | restartSurveyCb => exact ih
    | confirmProfileReset =>
      simp only [applyEvent]
      intro hfsm
      rcases startSurveyFn_no_profile cat
          { s with answers := [], profileCompleted := false, profileText := "",
                   profileDetails := "", personalityType := none,
                   waitingForVasiniConfirmation := false, questionIndex := 0,
                   isDemoQuestions := true } with heq | hnc
      · rw [heq]
      · exact hnc
    | cancelProfileReset => exact ih
    | mainMenuCb =>
      simp only [applyEvent]
      intro hfsm
      exact absurd hfsm (by simp)
    | getAdviceCb pick =>
      simp only [applyEvent]
      intro hfsm
      rw [(getAdviceCallback_preserves pick s).2]
      apply ih
      rw [← (getAdviceCallback_preserves pick s).1]
      exact hfsm
    | commandAdvice pick =>
      simp only [applyEvent]
      split
      · rename_i hpc
        intro hfsm
        have hfsm' : s.fsmState = some FsmState.answeringQuestions := by
          rw [← (getAdviceCallback_preserves pick s).1]
          exact hfsm
        rw [ih hfsm'] at hpc
        exact absurd hpc (by simp)
      · exact ih
    | commandProfile =>
      simp only [applyEvent]
      split
      · split
        · exact ih
        · intro hfsm
          exact absurd hfsm (by simp)
      · exact ih
    | showDetailsCb => exact ih
    | viewProfileCb => exact ih

/-- C5.  A cancel signal during `answering_questions` (covering both the
demo and the inventory phase, at any cursor position) unconditionally
clears the session: the state returns to idle and the in-progress answer
set is discarded.  In every reachable session that is answering a
survey, `profile_completed` is false — a completed profile from a prior
session was already cleared by the explicit user-confirmed reset dialog
before the survey started — so the cancel never destroys a completed
profile. -/
theorem cancel_discards_in_progress (cat : Catalog) (classify : Classifier)
    (gateway : Except Unit String) (s : Session)
    (hr : Reachable cat s)
    (hfsm : s.fsmState = some FsmState.answeringQuestions) :
    processSurveyAnswer cat classify gateway cancelText s
        = .ok (Session.init, [Out.cancelNotice]) ∧
    Session.init.fsmState = none ∧
    Session.init.answers = [] ∧
    s.profileCompleted = false := by
  refine ⟨?_, rfl, rfl, answering_implies_no_profile cat s hr hfsm⟩
  unfold processSurveyAnswer
  rw [if_pos rfl]

/-- C5, witness: starting a survey from a fresh session reaches the
answering state, where the cancel text clears the session back to the
init record and no completed profile was present. -/
theorem cancel_discards_in_progress_witness :
    (applyEvent sampleCatalog Event.startSurvey Session.init).fsmState
        = some FsmState.answeringQuestions ∧
    processSurveyAnswer sampleCatalog zeroClassifier (.error ()) cancelText
        (applyEvent sampleCatalog Event.startSurvey Session.init)
      = .ok (Session.init, [Out.cancelNotice]) ∧
    (applyEvent sampleCatalog Event.startSurvey Session.init).profileCompleted
        = false := by
  have h := cancel_discards_in_progress sampleCatalog zeroClassifier (.error ())
      (applyEvent sampleCatalog Event.startSurvey Session.init)
      (Reachable.step Event.startSurvey Session.init Reachable.init) rfl
  exact ⟨rfl, h.1, h.2.2.2⟩

theorem lookup_none_of_not_mem {β : Type} (a : String) :
    ∀ l : List (String × β), a ∉ l.map Prod.fst → List.lookup a l = none := by
  intro l
  induction l with
  | nil => intro _; rfl
  | cons p ps ih =>
    intro h
    obtain ⟨k, v⟩ := p
    simp only [List.map_cons, List.mem_cons] at h
    push_neg at h
    have h1 : (a == k) = false := beq_eq_false_iff_ne.mpr h.1
    simp only [List.lookup, h1]
    exact ih h.2

theorem lookup_isSome_of_mem_keys {β : Type} (a : String) :
    ∀ l : List (String × β), a ∈ l.map Prod.fst → ∃ b, List.lookup a l = some b := by
  intro l
  induction l with
  | nil => intro h; simp at h
  | cons p ps ih =>
    intro h
    obtain ⟨k, v⟩ := p
    by_cases heq : a = k
    · subst heq
      exact ⟨v, by simp [List.lookup]⟩
    · have h1 : (a == k) = false := beq_eq_false_iff_ne.mpr heq
      simp only [List.lookup, h1]
      apply ih
      simp only [List.map_cons, List.mem_cons] at h
      rcases h with h | h
      · exact absurd h heq
      · exact h

theorem foldl_best_mem (f : String → Nat) :
    ∀ (l : List String) (acc : String) (S : List String),
      acc ∈ S → (∀ x ∈ l, x ∈ S) →
      l.foldl (fun best x => if f best < f x then x else best) acc ∈ S := by
  intro l
  induction l with
  | nil => intro acc S ha _; exact ha
  | cons x xs ih =>
    intro acc S ha hl
    rw [List.foldl_cons]
    apply ih
    · split
      · exact hl x (by simp)
      · exact ha
    · intro y hy
      exact hl y (by simp [hy])

theorem maxByFirst_mem (f : String → Nat) (t : String) (ts : List String) :
    maxByFirst f (t :: ts) ∈ t :: ts := by
  unfold maxByFirst
  exact foldl_best_mem f ts t (t :: ts) (by simp) (fun x hx => by simp [hx])

theorem keywordsTable_keys : keywordsTable.map Prod.fst = typeKeys := rfl

theorem aspectsTable_keys : aspectsTable.map Prod.fst = typeKeys := rfl

theorem emojiTable_keys : emojiTable.map Prod.fst = typeKeys := rfl

theorem techniquesTable_keys : techniquesTable.map Prod.fst = typeKeys := rfl

theorem contextsTable_keys : contextsTable.map Prod.fst = typeKeys := rfl

theorem resultsTable_keys : resultsTable.map Prod.fst = typeKeys := rfl

theorem extractKeyAspects_unknown (profileText personalityType : String)
    (h : personalityType ∉ typeKeys) :
    ∃ extra : List String,
      (extra = [] ∨ ∃ dom ∈ typeKeys, extra = (List.lookup dom aspectsTable).getD []) ∧
      extractKeyAspects profileText personalityType
        = (List.lookup defaultType aspectsTable).getD [] ++ extra := by
  have hnone : List.lookup personalityType aspectsTable = none :=
    lookup_none_of_not_mem _ _ (by rw [aspectsTable_keys]; exact h)
  have hdef : ∃ b, List.lookup defaultType aspectsTable = some b :=
    lookup_isSome_of_mem_keys _ _ (by rw [aspectsTable_keys]; decide)
  obtain ⟨db, hdb⟩ := hdef
  unfold extractKeyAspects
  dsimp only
  split
  · refine ⟨[], Or.inl rfl, ?_⟩
    rw [hnone, hdb]
    simp
  · set found := allKeywords.filter (fun kw => containsKeyword profileText kw) with hfound
    set dom := maxByFirst (keywordCountFor found) (keywordsTable.map Prod.fst) with hdom
    have hmem : dom ∈ typeKeys := by
      rw [hdom, keywordsTable_keys]
      exact maxByFirst_mem _ _ _
    have hne : dom ≠ personalityType := fun hcontra => h (hcontra ▸ hmem)
    rw [if_pos hne]
    obtain ⟨b, hb⟩ := lookup_isSome_of_mem_keys dom aspectsTable
      (by rw [aspectsTable_keys]; exact hmem)
    refine ⟨b, Or.inr ⟨dom, hmem, by rw [hb]; rfl⟩, ?_⟩
    rw [hnone, hdb, hb]
    simp

theorem chooseFrom_mem (pick : Nat → Nat) (k : Nat) (pool : List String)
    (h : pool ≠ []) : chooseFrom pick k pool ∈ pool := by
  unfold chooseFrom
  have hlen : 0 < pool.length := List.length_pos.mpr h
  have hlt : pick k % pool.length < pool.length := Nat.mod_lt _ hlen
  rw [List.getD_eq_getElem pool _ hlt]
  exact List.getElem_mem hlt

theorem adviceLoop_result (pick : Nat → Nat) (P : Pools) (history : List String) :
    ∀ (n a : Nat), 5 - a ≤ n → a ≤ 5 →
      ∃ j, a ≤ j ∧ j ≤ 5 ∧
        adviceLoop pick P history a (adviceAt pick P a) = adviceAt pick P j ∧
        (adviceAt pick P j ∉ history ∨ j = 5) := by
  intro n
  induction n with
  | zero =>
    intro a h1 h2
    have ha : a = 5 := by omega
    subst ha
    refine ⟨5, le_refl _, le_refl _, ?_, Or.inr rfl⟩
    unfold adviceLoop
    rw [dif_neg (fun hc => absurd hc.2 (by omega))]
  | succ n ih =>
    intro a h1 h2
    unfold adviceLoop
    split
    · rename_i hcond
      obtain ⟨j, hj1, hj2, hj3, hj4⟩ := ih (a + 1) (by omega) (by omega)
      exact ⟨j, by omega, hj2, hj3, hj4⟩
    · rename_i hcond
      refine ⟨a, le_refl _, h2, rfl, ?_⟩
      by_cases hm : adviceAt pick P a ∈ history
      · right
        by_cases ha : a < 5
        · exact absurd ⟨hm, ha⟩ hcond
        · omega
      · left
        exact hm

/-- C8.  The reject-and-resample loop of `generate_unique_advice` is
bounded: the returned advice is the composition of attempt `j` for some
`j ≤ 5` (at most five resamples after the initial composition), and the
result either does not occur in the history or the fifth resample was
reached, in which case the last composed string is returned even when it
duplicates a history entry. -/
theorem advice_resample_bounded (pick : Nat → Nat)
    (profileText personalityType : String) (history : List String) :
    ∃ j ≤ 5,
      generateUniqueAdvice pick profileText personalityType history
        = adviceAt pick (poolsOf profileText personalityType) j ∧
      (adviceAt pick (poolsOf profileText personalityType) j ∉ history ∨ j = 5) := by
  obtain ⟨j, _, hj2, hj3, hj4⟩ :=
    adviceLoop_result pick (poolsOf profileText personalityType) history 5 0
      (by omega) (by omega)
  exact ⟨j, hj2, hj3, hj4⟩

theorem adviceAt_shape (pick : Nat → Nat) (P : Pools) (j : Nat)
    (hemoji : P.emojiPool ≠ []) (haspect : P.aspectPool ≠ [])
    (htech : P.techniquePool ≠ []) (hctx : P.contextPool ≠ [])
    (hres : P.resultPool ≠ []) :
    ∃ e a tech r ctx, adviceAt pick P j = composeAdvice e a tech r ctx ∧
      e ∈ P.emojiPool ∧ a ∈ P.aspectPool ∧ tech ∈ P.techniquePool ∧
      ctx ∈ P.contextPool ∧ r ∈ P.resultPool := by
  cases j with
  | zero =>
    exact ⟨_, _, _, _, _, rfl, chooseFrom_mem _ _ _ hemoji, chooseFrom_mem _ _ _ haspect,
      chooseFrom_mem _ _ _ htech, chooseFrom_mem _ _ _ hctx, chooseFrom_mem _ _ _ hres⟩
  | succ j =>
    exact ⟨_, _, _, _, _, rfl, chooseFrom_mem _ _ _ hemoji, chooseFrom_mem _ _ _ haspect,
      chooseFrom_mem _ _ _ htech, chooseFrom_mem _ _ _ hctx, chooseFrom_mem _ _ _ hres⟩

/-- C7.  For a `personality_type` outside the known enumeration, every
dictionary lookup site independently substitutes the default type's
pool: the emoji, technique, context and outcome pools all resolve to the
default type's lists, the aspect pool resolves to the default type's
aspects (possibly extended by the dominant type the profile text itself
suggests, per the dominant-type rule), and the composed advice is built
entirely from elements of these resolved pools.  No lookup fails: in the
embedding every access is total via the same `getD` fallback the source
uses at each site. -/
theorem unknown_type_default_pools (personalityType : String)
    (h : personalityType ∉ typeKeys) (profileText : String)
    (history : List String) (pick : Nat → Nat) :
    (poolsOf profileText personalityType).emojiPool
        = (List.lookup defaultType emojiTable).getD fallbackEmoji ∧
    (poolsOf profileText personalityType).techniquePool
        = (List.lookup defaultType techniquesTable).getD fallbackTechnique ∧
    (poolsOf profileText personalityType).contextPool
        = (List.lookup defaultType contextsTable).getD fallbackContext ∧
    (poolsOf profileText personalityType).resultPool
        = (List.lookup defaultType resultsTable).getD fallbackResult ∧
    (∃ extra, (extra = [] ∨ ∃ dom ∈ typeKeys, extra = (List.lookup dom aspectsTable).getD []) ∧
      (poolsOf profileText personalityType).aspectPool
        = (List.lookup defaultType aspectsTable).getD [] ++ extra) ∧
    (∃ e a tech r ctx,
      generateUniqueAdvice pick profileText personalityType history
          = composeAdvice e a tech r ctx ∧
      e ∈ (poolsOf profileText personalityType).emojiPool ∧
      a ∈ (poolsOf profileText personalityType).aspectPool ∧
      tech ∈ (poolsOf profileText personalityType).techniquePool ∧
      ctx ∈ (poolsOf profileText personalityType).contextPool ∧
      r ∈ (poolsOf profileText personalityType).resultPool) := by
  have hemoji : List.lookup personalityType emojiTable = none :=
    lookup_none_of_not_mem _ _ (by rw [emojiTable_keys]; exact h)
  have htech : List.lookup personalityType techniquesTable = none :=
    lookup_none_of_not_mem _ _ (by rw [techniquesTable_keys]; exact h)
  have hctx : List.lookup personalityType contextsTable = none :=
    lookup_none_of_not_mem _ _ (by rw [contextsTable_keys]; exact h)
  have hres : List.lookup personalityType resultsTable = none :=
    lookup_none_of_not_mem _ _ (by rw [resultsTable_keys]; exact h)
  obtain ⟨extra, hextra, haspects⟩ := extractKeyAspects_unknown profileText personalityType h
  have hdefNE : (List.lookup defaultType aspectsTable).getD ([] : List String) ≠ [] := by
    decide
  have haspectPool : (poolsOf profileText personalityType).aspectPool
      = (List.lookup defaultType aspectsTable).getD [] ++ extra := by
    unfold poolsOf
    dsimp only
    rw [haspects, if_neg]
    intro hcontra
    rcases List.append_eq_nil.mp hcontra with ⟨h1, _⟩
    exact hdefNE h1
  have hP1 : (poolsOf profileText personalityType).emojiPool
      = (List.lookup defaultType emojiTable).getD fallbackEmoji := by
    unfold poolsOf
    dsimp only
    rw [hemoji]
    rfl
  have hP2 : (poolsOf profileText personalityType).techniquePool
      = (List.lookup defaultType techniquesTable).getD fallbackTechnique := by
    unfold poolsOf
    dsimp only
    rw [htech]
    rfl
  have hP3 : (poolsOf profileText personalityType).contextPool
      = (List.lookup defaultType contextsTable).getD fallbackContext := by
    unfold poolsOf
    dsimp only
    rw [hctx]
    rfl
  have hP4 : (poolsOf profileText personalityType).resultPool
      = (List.lookup defaultType resultsTable).getD fallbackResult := by
    unfold poolsOf
    dsimp only
    rw [hres]
    rfl
  refine ⟨hP1, hP2, hP3, hP4, ⟨extra, hextra, haspectPool⟩, ?_⟩
  obtain ⟨j, _, hgen, _⟩ :=
    advice_resample_bounded pick profileText personalityType history
  obtain ⟨e, a, tech, r, ctx, hcomp, he, ha, ht, hc, hr⟩ :=
    adviceAt_shape pick (poolsOf profileText personalityType) j
      (by rw [hP1]; decide) (by rw [haspectPool]; intro hx; exact hdefNE (List.append_eq_nil.mp hx).1)
      (by rw [hP2]; decide) (by rw [hP3]; decide) (by rw [hP4]; decide)
  exact ⟨e, a, tech, r, ctx, by rw [hgen, hcomp], he, ha, ht, hc, hr⟩

/-- C7, witness: the unknown type `"Неизвестный"` on an empty profile
resolves every pool to the default type's pool and the advice is drawn
from them. -/
theorem unknown_type_default_pools_witness :
    unknownType ∉ typeKeys ∧
    ((poolsOf "" unknownType).emojiPool
        = (List.lookup defaultType emojiTable).getD fallbackEmoji ∧
    (poolsOf "" unknownType).techniquePool
        = (List.lookup defaultType techniquesTable).getD fallbackTechnique ∧
    (poolsOf "" unknownType).contextPool
        = (List.lookup defaultType contextsTable).getD fallbackContext ∧
    (poolsOf "" unknownType).resultPool
        = (List.lookup defaultType resultsTable).getD fallbackResult ∧
    (∃ extra, (extra = [] ∨ ∃ dom ∈ typeKeys, extra = (List.lookup dom aspectsTable).getD []) ∧
      (poolsOf "" unknownType).aspectPool
        = (List.lookup defaultType aspectsTable).getD [] ++ extra) ∧
    (∃ e a tech r ctx,
      generateUniqueAdvice (fun _ => 0) "" unknownType []
          = composeAdvice e a tech r ctx ∧
      e ∈ (poolsOf "" unknownType).emojiPool ∧
      a ∈ (poolsOf "" unknownType).aspectPool ∧
      tech ∈ (poolsOf "" unknownType).techniquePool ∧
      ctx ∈ (poolsOf "" unknownType).contextPool ∧
      r ∈ (poolsOf "" unknownType).resultPool)) :=
  ⟨by decide, unknown_type_default_pools unknownType (by decide) "" [] (fun _ => 0)⟩

/-- C10.  The advice callback never requires a completed profile: on a
fresh session (no personality type, no profile details) it still
produces an advice string, defaulting the personality type to the
default type and taking the fallback canned-list branch because the
profile details default to the empty string, and it appends that advice
to the previously empty history. -/
theorem advice_without_profile (pick : Nat → Nat) :
    Session.init.profileCompleted = false ∧
    Session.init.profileDetails = "" ∧
    (getAdviceCallback pick Session.init).1
        = { Session.init with usedAdvices := [chooseFrom pick 0 intellectualFallback] } ∧
    (getAdviceCallback pick Session.init).2
        = [Out.adviceText (chooseFrom pick 0 intellectualFallback)] ∧
    chooseFrom pick 0 intellectualFallback ∈ intellectualFallback :=
  ⟨rfl, rfl, rfl, rfl, chooseFrom_mem pick 0 intellectualFallback (by decide)⟩

end ONASQLite
